import Mathlib

/-!
Verification development for the `savaki/opentracing` apexlog adapter.

The Go sources define a minimal OpenTracing implementation backed by a
structured logger:
  * `Span` (apexlog/option.go, second file section) holds an operation name,
    a start time, a logging-entry handle, and two lazily allocated maps:
    `baggage : map[string]string` and `tags : map[string]interface{}`.
  * `Tracer` owns the configured message field key (`msgKey`) and performs
    the field merging (`makeFields`), the emission (`info`), span creation
    (`StartSpan`), and the stub `Inject`/`Extract`.

Go maps are modelled as association lists (`List (String × v)`) together
with an overwrite-insert (`mapInsert`) and a lookup (`mapLookup`); a `nil`
Go map is `none : Option (List _)`, an allocated one is `some _`.
Go `interface{}` values are modelled by the inductive `GoValue`, whose
constructors are exactly the dynamic types that `Span.LogKV` dispatches on.
Side effects on the logging sink are made explicit: an `Info` call on an
entry is an `Emission` value, and methods that may emit return the list of
emissions they perform.
-/

namespace Apexlog

/-- A dynamically typed Go value (`interface{}`), restricted to the kinds the
adapter dispatches on in `Span.LogKV`: strings, the integer widths, bools,
floats (kept as opaque bit patterns, no arithmetic is performed on them),
errors, and a catch-all object. -/
inductive GoValue where
  | str (s : String)
  | int (n : Int)
  | int64 (n : Int)
  | int32 (n : Int)
  | uint64 (n : Nat)
  | uint32 (n : Nat)
  | bool (b : Bool)
  | float32 (bits : Nat)
  | float64 (bits : Nat)
  | err (e : String)
  | obj (o : String)
deriving DecidableEq, Repr

/-- `value.(string)` with the ok flag discarded: the string payload, or the
zero value `""` for every non-string `GoValue`. -/
def stringValueOrEmpty : GoValue → String
  | GoValue.str s => s
  | _ => ""

/-- Whether a `GoValue` is a string (the `value.(string)` type test). -/
def isStringValue : GoValue → Bool
  | GoValue.str _ => true
  | _ => false

/-- An opentracing `log.Field`: a key together with its typed value
(`field.Key()` and `field.Value()` are the projections used by
`Tracer.makeFields`). -/
structure Field where
  key : String
  value : GoValue
deriving DecidableEq, Repr

/-- Go map assignment `m[k] = v`: overwrite the entry for `k` in place if
present, otherwise append a new entry. -/
def mapInsert (k : String) (v : α) : List (String × α) → List (String × α)
  | [] => [(k, v)]
  | (k', v') :: rest =>
    if k' = k then (k, v) :: rest else (k', v') :: mapInsert k v rest

/-- Go map read `m[k]` as an `Option` (first matching entry; entries built
through `mapInsert` have distinct keys, so first = only). -/
def mapLookup (k : String) : List (String × α) → Option α
  | [] => none
  | (k', v) :: rest => if k' = k then some v else mapLookup k rest

/-- The value attached to the LAST occurrence of key `k` in an association
list, if any.  This is the value that survives when the list is folded into
a Go map with `mapInsert`. -/
def lastLookup (k : String) : List (String × α) → Option α
  | [] => none
  | (k', v) :: rest =>
    match lastLookup k rest with
    | some w => some w
    | none => if k' = k then some v else none

/-- The value of the LAST field with key `k` in a field list, if any. -/
def lastFieldValue (k : String) : List Field → Option GoValue
  | [] => none
  | fl :: rest =>
    match lastFieldValue k rest with
    | some w => some w
    | none => if fl.key = k then some fl.value else none

/-- Left-biased choice on options (`a`, falling back to `b`). -/
def optOrElse (a b : Option α) : Option α :=
  match a with
  | some v => some v
  | none => b

/-- The explicit log fields with every field keyed by the message key `mk`
removed; used to state that the message field is excluded from the merged
field mapping. -/
def removeMsgFields (mk : String) : List Field → List Field
  | [] => []
  | fl :: rest =>
    if fl.key = mk then removeMsgFields mk rest
    else fl :: removeMsgFields mk rest

/-- The message a field list determines: the string payload of the last field
keyed by `mk` (empty for a non-string payload), or `""` when no field uses
`mk`. -/
def msgOf (mk : String) (fs : List Field) : String :=
  match lastFieldValue mk fs with
  | some v => stringValueOrEmpty v
  | none => ""

/-- Fold an association list into a fresh Go map (`Tracer.StartSpan` does
this with `options.Tags`). -/
def goMapOfList (xs : List (String × α)) : List (String × α) :=
  xs.foldl (fun m kv => mapInsert kv.1 kv.2 m) []

/-- The tracer: the configured message field key.  (The injected logging
sink is external; its effect is modelled by `Entry` and `Emission` below.) -/
structure Tracer where
  msgKey : String
deriving DecidableEq, Repr

/-- A logging-entry handle (`*log.Entry`): the fields and event name it was
opened with (`WithFields(f).Trace(operationName)`). -/
structure Entry where
  openFields : List (String × GoValue)
  eventName : String
deriving DecidableEq, Repr

/-- One structured `Info` emission on an entry: the message, and the merged
fields when the merged mapping was non-empty (`WithFields(f).Info(msg)`),
or `none` when the bare `Info(msg)` overload was used. -/
structure Emission where
  entry : Entry
  msg : String
  fields : Option (List (String × GoValue))
deriving DecidableEq, Repr

/-- The span record (apexlog Span struct): tracer back-reference, operation
name, start time (abstract tick), logging-entry handle, and the two lazily
allocated maps (`none` = Go `nil` map). -/
structure Span where
  tracer : Tracer
  operationName : String
  startedAt : Nat
  logger : Entry
  baggage : Option (List (String × String))
  tags : Option (List (String × GoValue))
deriving DecidableEq, Repr

/-- One step of the field loop in `Tracer.makeFields`: a field keyed by the
message key updates the running message (string payload or `""`), any other
field is stored into the running mapping. -/
def fieldsStep (mk : String) (acc : String × List (String × GoValue)) (field : Field) :
    String × List (String × GoValue) :=
  if field.key = mk then (stringValueOrEmpty field.value, acc.2)
  else (acc.1, mapInsert field.key field.value acc.2)

/-- `Tracer.makeFields`: start from the baggage entries (as string values),
overwrite/add the tag entries, then walk the explicit fields with
`fieldsStep`; returns the extracted message and the merged field mapping. -/
def Tracer.makeFields (t : Tracer) (baggage : List (String × String))
    (tags : List (String × GoValue)) (fields : List Field) :
    String × List (String × GoValue) :=
  fields.foldl (fieldsStep t.msgKey)
    ("", tags.foldl (fun f kv => mapInsert kv.1 kv.2 f)
      (baggage.foldl (fun f kv => mapInsert kv.1 (GoValue.str kv.2) f) []))

/-- `Tracer.info`: merge, then emit on the given entry — with the merged
fields when the mapping is non-empty, otherwise the message alone. -/
def Tracer.info (t : Tracer) (logger : Entry) (baggage : List (String × String))
    (tags : List (String × GoValue)) (fields : List Field) : Emission :=
  match t.makeFields baggage tags fields with
  | (msg, f) =>
    if f.length > 0 then { entry := logger, msg := msg, fields := some f }
    else { entry := logger, msg := msg, fields := none }

/-- `Span.SetTag`: lazily allocate `tags` if nil, then `tags[key] = value`;
the returned span is the updated state (Go returns the receiver for
chaining). -/
def Span.SetTag (s : Span) (key : String) (value : GoValue) : Span :=
  { s with tags := some (mapInsert key value (s.tags.getD [])) }

/-- `Span.SetBaggageItem`: lazily allocate `baggage` if nil, then
`baggage[restrictedKey] = value`. -/
def Span.SetBaggageItem (s : Span) (restrictedKey value : String) : Span :=
  { s with baggage := some (mapInsert restrictedKey value (s.baggage.getD [])) }

/-- `Span.BaggageItem`: `""` for a nil map, otherwise the map read (whose
zero value is again `""` when the key is absent). -/
def Span.BaggageItem (s : Span) (restrictedKey : String) : String :=
  match s.baggage with
  | none => ""
  | some b => (mapLookup restrictedKey b).getD ""

/-- The baggage iteration loop of `Span.ForeachBaggageItem`, returning the
entries on which the handler was invoked: the source runs
`if ok := handler(k, v); ok { return }`, so it STOPS right after a call
that returns `true` and continues past a call that returns `false`. -/
def foreachVisit (handler : String → String → Bool) :
    List (String × String) → List (String × String)
  | [] => []
  | (k, v) :: rest =>
    if handler k v then [(k, v)] else (k, v) :: foreachVisit handler rest

/-- `Span.ForeachBaggageItem`, observed through the sequence of handler
invocations it performs (a nil baggage map iterates zero times). -/
def Span.ForeachBaggageItem (s : Span) (handler : String → String → Bool) :
    List (String × String) :=
  foreachVisit handler (s.baggage.getD [])

/-- `Span.LogFields`: one `Tracer.info` call on the span's entry with the
span's current baggage and tags; the span itself is not mutated, which the
model makes explicit by returning it unchanged next to the emission list. -/
def Span.LogFields (s : Span) (fields : List Field) : Span × List Emission :=
  (s, [s.tracer.info s.logger (s.baggage.getD []) (s.tags.getD []) fields])

/-- The field-building loop of `Span.LogKV`: consume the arguments two at a
time (a trailing unpaired argument is ignored by the `i+1 < len` bound),
skip pairs whose key is not a string, and dispatch the value's dynamic type
to the corresponding typed field constructor.  `otlog.Error` ignores the
supplied key and uses the fixed key `"error"`. -/
def interleavedKVToFields : List GoValue → List Field
  | k :: v :: rest =>
    (match k with
     | GoValue.str key =>
       (match v with
        | GoValue.str s => [Field.mk key (GoValue.str s)]
        | GoValue.int n => [Field.mk key (GoValue.int n)]
        | GoValue.int64 n => [Field.mk key (GoValue.int64 n)]
        | GoValue.int32 n => [Field.mk key (GoValue.int32 n)]
        | GoValue.uint64 n => [Field.mk key (GoValue.uint64 n)]
        | GoValue.uint32 n => [Field.mk key (GoValue.uint32 n)]
        | GoValue.bool b => [Field.mk key (GoValue.bool b)]
        | GoValue.float32 x => [Field.mk key (GoValue.float32 x)]
        | GoValue.float64 x => [Field.mk key (GoValue.float64 x)]
        | GoValue.err e => [Field.mk "error" (GoValue.err e)]
        | GoValue.obj o => [Field.mk key (GoValue.obj o)])
     | _ => []) ++ interleavedKVToFields rest
  | _ => []

/-- `Span.LogKV`: the source builds the typed field list and then falls off
the end of the function — `_fields` is never forwarded to `Tracer.info`, so
no emission happens. -/
def Span.LogKV (_s : Span) (alternatingKeyValues : List GoValue) : List Emission :=
  let _fields := interleavedKVToFields alternatingKeyValues
  []

/-- An opentracing span reference type. -/
inductive RefType where
  | childOf
  | followsFrom
deriving DecidableEq, Repr

/-- A span reference in `StartSpanOptions`: its type, and the referenced
context when it is a `*Span` of this tracer (`none` models a context of any
other dynamic type, for which the `.(*Span)` assertion fails). -/
structure Reference where
  refType : RefType
  referencedContext : Option Span
deriving DecidableEq, Repr

/-- The accumulated `opentracing.StartSpanOptions` after applying the
functional options. -/
structure StartSpanOptions where
  references : List Reference
  tags : List (String × GoValue)
  startTime : Nat
deriving DecidableEq, Repr

/-- The parent-resolution loop of `Tracer.StartSpan`: each child-of
reference whose context type-asserts to `*Span` overwrites `parent`, so the
last such reference wins; other references leave `parent` untouched. -/
def resolveParent (refs : List Reference) : Option Span :=
  refs.foldl
    (fun p ref =>
      if ref.refType = RefType.childOf then
        match ref.referencedContext with
        | some sp => some sp
        | none => p
      else p)
    none

/-- The baggage-copy loop of `Tracer.StartSpan`: `span.SetBaggageItem(k, v)`
for every entry of the parent's baggage. -/
def copyBaggage (xs : List (String × String)) (s : Span) : Span :=
  xs.foldl (fun sp kv => sp.SetBaggageItem kv.1 kv.2) s

/-- `Tracer.StartSpan`: resolve the parent from the references, build the
span (`startedAt` is the current time; the option's start time is unused by
the source), copy the parent's baggage entry by entry, fold the option tags
into a fresh local map (never into `span.tags`), and open the logging entry
with the merged baggage+tags fields and the operation name as event name.
(The source nests the new entry under the parent's entry when a parent
exists; the entry's provenance is not otherwise observable here.) -/
def Tracer.StartSpan (t : Tracer) (operationName : String)
    (options : StartSpanOptions) (now : Nat) : Span :=
  let parent := resolveParent options.references
  let span0 : Span :=
    { tracer := t, operationName := operationName, startedAt := now,
      logger := { openFields := [], eventName := "" },
      baggage := none, tags := none }
  let span1 :=
    match parent with
    | some p => copyBaggage (p.baggage.getD []) span0
    | none => span0
  let f := (t.makeFields (span1.baggage.getD []) (goMapOfList options.tags) []).2
  { span1 with logger := { openFields := f, eventName := operationName } }

/-- The opentracing propagation errors an implementation may return. -/
inductive GoError where
  | errUnsupportedFormat
  | errSpanContextNotFound
  | errInvalidCarrier
  | errSpanContextCorrupted
deriving DecidableEq, Repr

/-- `Tracer.Inject`: unconditionally `opentracing.ErrUnsupportedFormat`
(`some` models a non-nil Go error). -/
def Tracer.Inject (_t : Tracer) (_sm : Option Span)
    (_format _carrier : GoValue) : Option GoError :=
  some GoError.errUnsupportedFormat

/-- `Tracer.Extract`: unconditionally `(nil, ErrUnsupportedFormat)`. -/
def Tracer.Extract (_t : Tracer) (_format _carrier : GoValue) :
    Option Span × Option GoError :=
  (none, some GoError.errUnsupportedFormat)

/-! ### Helper lemmas about the association-list model of Go maps -/

theorem mapLookup_mapInsert (k k' : String) (v : α) (m : List (String × α)) :
    mapLookup k (mapInsert k' v m) = if k' = k then some v else mapLookup k m := by
  induction m with
  | nil => simp [mapInsert, mapLookup]
  | cons hd tl ih =>
    obtain ⟨a, b⟩ := hd
    simp only [mapInsert]
    by_cases hak : a = k'
    · subst hak
      by_cases hk : a = k <;> simp [mapLookup, hk]
    · by_cases hk : a = k
      · subst hk
        have hne : ¬ (k' = a) := fun h => hak h.symm
        simp [mapLookup, hne, hak]
      · simp [mapLookup, hk, hak, ih]

theorem optOrElse_none (a : Option α) : optOrElse a none = a := by
  cases a <;> rfl

theorem mapInsert_mapInsert (k : String) (v1 v2 : α) (m : List (String × α)) :
    mapInsert k v2 (mapInsert k v1 m) = mapInsert k v2 m := by
  induction m with
  | nil => simp [mapInsert]
  | cons hd tl ih =>
    obtain ⟨a, b⟩ := hd
    by_cases hak : a = k
    · simp [mapInsert, hak]
    · simp [mapInsert, hak, ih]

theorem mapLookup_foldInsert (k : String) (xs : List (String × α))
    (init : List (String × α)) :
    mapLookup k (xs.foldl (fun f kv => mapInsert kv.1 kv.2 f) init) =
      optOrElse (lastLookup k xs) (mapLookup k init) := by
  induction xs generalizing init with
  | nil => simp [lastLookup, optOrElse]
  | cons hd tl ih =>
    obtain ⟨a, b⟩ := hd
    simp only [List.foldl_cons, ih, mapLookup_mapInsert, lastLookup]
    cases h : lastLookup k tl with
    | some w => simp [optOrElse]
    | none =>
      by_cases hak : a = k
      · simp [optOrElse, hak]
      · simp [optOrElse, hak]

theorem mapLookup_foldInsertStr (k : String) (xs : List (String × String))
    (init : List (String × GoValue)) :
    mapLookup k (xs.foldl (fun f kv => mapInsert kv.1 (GoValue.str kv.2) f) init) =
      optOrElse ((lastLookup k xs).map GoValue.str) (mapLookup k init) := by
  induction xs generalizing init with
  | nil => simp [lastLookup, optOrElse]
  | cons hd tl ih =>
    obtain ⟨a, b⟩ := hd
    simp only [List.foldl_cons, ih, mapLookup_mapInsert, lastLookup]
    cases h : lastLookup k tl with
    | some w => simp [optOrElse]
    | none =>
      by_cases hak : a = k
      · simp [optOrElse, hak]
      · simp [optOrElse, hak]

theorem lastLookup_eq_none_of_not_mem (k : String) (xs : List (String × α))
    (h : k ∉ xs.map Prod.fst) : lastLookup k xs = none := by
  induction xs with
  | nil => rfl
  | cons hd tl ih =>
    obtain ⟨a, b⟩ := hd
    simp only [List.map_cons, List.mem_cons] at h
    push_neg at h
    have hne : a ≠ k := Ne.symm h.1
    simp [lastLookup, ih h.2, hne]

theorem lastLookup_eq_mapLookup (k : String) (xs : List (String × α))
    (h : (xs.map Prod.fst).Nodup) : lastLookup k xs = mapLookup k xs := by
  induction xs with
  | nil => rfl
  | cons hd tl ih =>
    obtain ⟨a, b⟩ := hd
    simp only [List.map_cons, List.nodup_cons] at h
    by_cases hak : a = k
    · subst hak
      rw [lastLookup, lastLookup_eq_none_of_not_mem a tl h.1]
      simp [mapLookup]
    · rw [lastLookup, ih h.2, mapLookup, if_neg hak]
      cases mapLookup k tl <;> simp [hak]

/-! ### Helper lemmas about the field loop of `Tracer.makeFields` -/

theorem foldl_fieldsStep_snd (mk : String) (fs : List Field) (m : String)
    (f : List (String × GoValue)) :
    (fs.foldl (fieldsStep mk) (m, f)).2 =
      (removeMsgFields mk fs).foldl
        (fun acc fl => mapInsert fl.key fl.value acc) f := by
  induction fs generalizing m f with
  | nil => rfl
  | cons fl tl ih =>
    by_cases hk : fl.key = mk
    · simp [fieldsStep, removeMsgFields, hk, ih]
    · simp [fieldsStep, removeMsgFields, hk, ih]

theorem foldl_fieldsStep_fst (mk : String) (fs : List Field) (m : String)
    (f : List (String × GoValue)) :
    (fs.foldl (fieldsStep mk) (m, f)).1 =
      (match lastFieldValue mk fs with
       | some v => stringValueOrEmpty v
       | none => m) := by
  induction fs generalizing m f with
  | nil => rfl
  | cons fl tl ih =>
    by_cases hk : fl.key = mk
    · simp only [List.foldl_cons, fieldsStep, if_pos hk, ih, lastFieldValue, hk]
      cases lastFieldValue mk tl <;> simp
    · simp only [List.foldl_cons, fieldsStep, if_neg hk, ih, lastFieldValue]
      cases lastFieldValue mk tl <;> simp [hk]

theorem mapLookup_foldFields (k : String) (fs : List Field)
    (init : List (String × GoValue)) :
    mapLookup k (fs.foldl (fun acc fl => mapInsert fl.key fl.value acc) init) =
      optOrElse (lastFieldValue k fs) (mapLookup k init) := by
  induction fs generalizing init with
  | nil => simp [lastFieldValue, optOrElse]
  | cons fl tl ih =>
    simp only [List.foldl_cons, ih, mapLookup_mapInsert, lastFieldValue]
    cases h : lastFieldValue k tl with
    | some w => simp [optOrElse]
    | none =>
      by_cases hak : fl.key = k
      · simp [optOrElse, hak]
      · simp [optOrElse, hak]

theorem removeMsgFields_idem (mk : String) (fs : List Field) :
    removeMsgFields mk (removeMsgFields mk fs) = removeMsgFields mk fs := by
  induction fs with
  | nil => rfl
  | cons fl tl ih =>
    by_cases hk : fl.key = mk
    · simp [removeMsgFields, hk, ih]
    · simp [removeMsgFields, hk, ih]

/-! ### Helper lemmas about spans -/

theorem Span.BaggageItem_eq_lookup (s : Span) (k : String) :
    s.BaggageItem k = (mapLookup k (s.baggage.getD [])).getD "" := by
  unfold Span.BaggageItem
  cases h : s.baggage with
  | none => simp [h, mapLookup]
  | some b => simp [h]

theorem copyBaggage_tracer (xs : List (String × String)) (s : Span) :
    (copyBaggage xs s).tracer = s.tracer := by
  induction xs generalizing s with
  | nil => rfl
  | cons hd tl ih => simp [copyBaggage, List.foldl_cons] at ih ⊢; exact ih _

theorem copyBaggage_operationName (xs : List (String × String)) (s : Span) :
    (copyBaggage xs s).operationName = s.operationName := by
  induction xs generalizing s with
  | nil => rfl
  | cons hd tl ih => simp [copyBaggage, List.foldl_cons] at ih ⊢; exact ih _

theorem copyBaggage_startedAt (xs : List (String × String)) (s : Span) :
    (copyBaggage xs s).startedAt = s.startedAt := by
  induction xs generalizing s with
  | nil => rfl
  | cons hd tl ih => simp [copyBaggage, List.foldl_cons] at ih ⊢; exact ih _

theorem copyBaggage_tags (xs : List (String × String)) (s : Span) :
    (copyBaggage xs s).tags = s.tags := by
  induction xs generalizing s with
  | nil => rfl
  | cons hd tl ih => simp [copyBaggage, List.foldl_cons] at ih ⊢; exact ih _

theorem copyBaggage_baggage (xs : List (String × String)) (s : Span) :
    (copyBaggage xs s).baggage.getD [] =
      xs.foldl (fun m kv => mapInsert kv.1 kv.2 m) (s.baggage.getD []) := by
  induction xs generalizing s with
  | nil => rfl
  | cons hd tl ih =>
    simp only [copyBaggage, List.foldl_cons] at ih ⊢
    rw [ih]
    rfl

/-! ### Helper lemmas about `Tracer.StartSpan` -/

theorem StartSpan_tags_eq (t : Tracer) (name : String) (opts : StartSpanOptions)
    (now : Nat) : (t.StartSpan name opts now).tags = none := by
  unfold Tracer.StartSpan
  cases hp : resolveParent opts.references with
  | none => simp [hp]
  | some p => simp [hp, copyBaggage_tags]

theorem StartSpan_tracer_eq (t : Tracer) (name : String) (opts : StartSpanOptions)
    (now : Nat) : (t.StartSpan name opts now).tracer = t := by
  unfold Tracer.StartSpan
  cases hp : resolveParent opts.references with
  | none => simp [hp]
  | some p => simp [hp, copyBaggage_tracer]

theorem StartSpan_logger_eq (t : Tracer) (name : String) (opts : StartSpanOptions)
    (now : Nat) :
    (t.StartSpan name opts now).logger =
      { openFields :=
          (t.makeFields ((t.StartSpan name opts now).baggage.getD [])
            (goMapOfList opts.tags) []).2,
        eventName := name } := by
  unfold Tracer.StartSpan
  cases hp : resolveParent opts.references with
  | none => simp [hp]
  | some p => simp [hp]

theorem StartSpan_baggage_getD (t : Tracer) (name : String) (opts : StartSpanOptions)
    (now : Nat) (p : Span) (hp : resolveParent opts.references = some p) :
    (t.StartSpan name opts now).baggage.getD [] =
      (p.baggage.getD []).foldl (fun m kv => mapInsert kv.1 kv.2 m) [] := by
  unfold Tracer.StartSpan
  rw [hp]
  simp [copyBaggage_baggage]

/-! ### Concrete spans used to evaluate the code on the claims' inputs -/

/-- A span with two baggage items, for exercising the baggage iteration. -/
def twoItemSpan : Span :=
  { tracer := { msgKey := "message" }, operationName := "op", startedAt := 0,
    logger := { openFields := [], eventName := "op" },
    baggage := some [("a", "1"), ("b", "2")], tags := none }

/-- A fresh span with no baggage and no tags, for exercising `LogKV`. -/
def kvSpan : Span :=
  { tracer := { msgKey := "message" }, operationName := "op2", startedAt := 0,
    logger := { openFields := [], eventName := "op2" },
    baggage := none, tags := none }

/-- A parent span carrying one baggage item, for exercising baggage copy. -/
def parentSpan : Span :=
  { tracer := { msgKey := "message" }, operationName := "parent", startedAt := 0,
    logger := { openFields := [], eventName := "parent" },
    baggage := some [("bk", "bv")], tags := none }

/-! ### Claim theorems -/

/-- C1: the claim says `ForeachBaggageItem(h)` invokes `h` on each baggage
entry, continuing while `h` returns `true` and halting as soon as `h`
returns `false`.  The source does the opposite: on a span with two baggage
entries, a handler that always returns `true` is invoked on only the first
entry (iteration stops right after a `true`), while a handler that always
returns `false` is invoked on both entries. -/
theorem ForeachBaggageItem_halts_after_true_handler :
    Span.ForeachBaggageItem twoItemSpan (fun _ _ => true) = [("a", "1")]
    ∧ Span.ForeachBaggageItem twoItemSpan (fun _ _ => false)
        = [("a", "1"), ("b", "2")] :=
  ⟨rfl, rfl⟩

/-- C2: the claim says `LogKV("event","soft error","waited.millis",1500)`
routes the type-dispatched field list into the same emission path as
`LogFields`, producing one structured emission.  The source builds exactly
the expected field list (string then integer dispatch) but never forwards
it to `Tracer.info`, so `LogKV` performs zero emissions — whereas handing
the same fields to `LogFields` yields the one emission the claim
describes. -/
theorem LogKV_builds_fields_but_emits_nothing :
    interleavedKVToFields
        [GoValue.str "event", GoValue.str "soft error",
         GoValue.str "waited.millis", GoValue.int 1500]
      = [{ key := "event", value := GoValue.str "soft error" },
         { key := "waited.millis", value := GoValue.int 1500 }]
    ∧ Span.LogKV kvSpan
        [GoValue.str "event", GoValue.str "soft error",
         GoValue.str "waited.millis", GoValue.int 1500] = []
    ∧ (Span.LogFields kvSpan
        [{ key := "event", value := GoValue.str "soft error" },
         { key := "waited.millis", value := GoValue.int 1500 }]).2
      = [{ entry := kvSpan.logger, msg := "",
           fields := some [("event", GoValue.str "soft error"),
                           ("waited.millis", GoValue.int 1500)] }] :=
  ⟨rfl, rfl, rfl⟩

/-- C3: the merged field mapping gives explicit (non-message) log fields
precedence over tags and tags precedence over baggage — for every key, the
merged value is the last explicit field for that key if any, else the tag
value, else the baggage value; and on baggage `a:"1"`, tags `a:"2", b:"3"`,
explicit field `a:"4"` the merge yields exactly `a:"4", b:"3"`. -/
theorem makeFields_merge_precedence :
    (∀ (t : Tracer) (b : List (String × String)) (tg : List (String × GoValue))
        (fs : List Field) (key : String),
      mapLookup key (t.makeFields b tg fs).2 =
        optOrElse (lastFieldValue key (removeMsgFields t.msgKey fs))
          (optOrElse (lastLookup key tg) ((lastLookup key b).map GoValue.str)))
    ∧ ((Tracer.mk "message").makeFields [("a", "1")]
         [("a", GoValue.str "2"), ("b", GoValue.str "3")]
         [{ key := "a", value := GoValue.str "4" }]).2
        = [("a", GoValue.str "4"), ("b", GoValue.str "3")] := by
  constructor
  · intro t b tg fs key
    simp only [Tracer.makeFields, foldl_fieldsStep_snd, mapLookup_foldFields,
      mapLookup_foldInsert, mapLookup_foldInsertStr, mapLookup, optOrElse_none]
  · rfl

/-- C4: in every merge, the explicit field keyed by the configured message
key is extracted as the emission's message (the last such field's string
payload; the empty string when no such field exists) and is excluded from
the merged field mapping (merging is unchanged by removing all
message-keyed fields); and the emission carries the merged fields exactly
when the merged mapping is non-empty, otherwise only the message. -/
theorem info_message_extraction :
    ∀ (t : Tracer) (e : Entry) (b : List (String × String))
        (tg : List (String × GoValue)) (fs : List Field),
      (t.info e b tg fs).msg = msgOf t.msgKey fs
      ∧ (t.makeFields b tg fs).2
          = (t.makeFields b tg (removeMsgFields t.msgKey fs)).2
      ∧ (t.info e b tg fs).fields =
          (if (t.makeFields b tg fs).2 = [] then none
           else some (t.makeFields b tg fs).2) := by
  intro t e b tg fs
  have h1 : (t.makeFields b tg fs).1 = msgOf t.msgKey fs := by
    simp only [Tracer.makeFields, foldl_fieldsStep_fst, msgOf]
  refine ⟨?_, ?_, ?_⟩
  · rcases hmf : t.makeFields b tg fs with ⟨msg, f⟩
    rw [hmf] at h1
    have h1' : msg = msgOf t.msgKey fs := h1
    simp only [Tracer.info, hmf]
    by_cases hl : f.length > 0 <;> simp [hl, h1']
  · simp only [Tracer.makeFields, foldl_fieldsStep_snd, removeMsgFields_idem]
  · rcases hmf : t.makeFields b tg fs with ⟨msg, f⟩
    simp only [Tracer.info, hmf]
    cases f with
    | nil => simp
    | cons hd tl => simp

/-- C5: a span started with a child-of reference to parent `P` carries, for
every key, the same baggage value `P` had at creation time (baggage is
copied entry by entry into the child's own map), and a subsequent
`SetBaggageItem(k, v2)` on the parent yields a parent state whose value is
`v2` while the already-created child value is the creation-time one. -/
theorem StartSpan_child_copies_baggage (t : Tracer) (p : Span) (name : String)
    (tgs : List (String × GoValue)) (st now : Nat) (k v2 : String)
    (hnd : ((p.baggage.getD []).map Prod.fst).Nodup) :
    (t.StartSpan name
        { references := [{ refType := RefType.childOf, referencedContext := some p }],
          tags := tgs, startTime := st } now).BaggageItem k = p.BaggageItem k
    ∧ (p.SetBaggageItem k v2).BaggageItem k = v2 := by
  constructor
  · have hp : resolveParent
        [{ refType := RefType.childOf, referencedContext := some p }] = some p := rfl
    rw [Span.BaggageItem_eq_lookup, Span.BaggageItem_eq_lookup,
      StartSpan_baggage_getD t name _ now p hp, mapLookup_foldInsert]
    rw [show mapLookup k ([] : List (String × String)) = none from rfl,
      optOrElse_none, lastLookup_eq_mapLookup k _ hnd]
  · simp [Span.SetBaggageItem, Span.BaggageItem, mapLookup_mapInsert]

/-- Witness for C5 at a concrete parent: baggage `bk:"bv"` is copied to the
child (`BaggageItem "bk"` agrees), and re-setting `bk` on the parent yields
`"v2"` there. -/
theorem StartSpan_child_copies_baggage_witness :
    ((parentSpan.baggage.getD []).map Prod.fst).Nodup
    ∧ ((Tracer.mk "message").StartSpan "child"
        { references :=
            [{ refType := RefType.childOf, referencedContext := some parentSpan }],
          tags := [], startTime := 0 } 5).BaggageItem "bk"
        = parentSpan.BaggageItem "bk"
    ∧ (parentSpan.SetBaggageItem "bk" "v2").BaggageItem "bk" = "v2" :=
  ⟨by decide,
   StartSpan_child_copies_baggage (Tracer.mk "message") parentSpan "child"
     [] 0 5 "bk" "v2" (by decide)⟩

/-- C6: `Inject` returns the unsupported-format error for every context,
format and carrier, and `Extract` returns a nil context together with the
unsupported-format error for every format and carrier. -/
theorem Inject_Extract_always_unsupported :
    ∀ (t : Tracer) (sm : Option Span) (format carrier f2 c2 : GoValue),
      t.Inject sm format carrier = some GoError.errUnsupportedFormat
      ∧ (t.Extract f2 c2).1 = none
      ∧ (t.Extract f2 c2).2 = some GoError.errUnsupportedFormat :=
  fun _ _ _ _ _ _ => ⟨rfl, rfl, rfl⟩

/-- C7: `SetTag` and `SetBaggageItem` are idempotent (repeating the same
key/value leaves the span state of a single call) and overwriting (setting
`k` to `v1` and then to `v2` equals a single set to `v2`, and the resulting
map holds `v2` at `k`). -/
theorem SetTag_SetBaggageItem_idempotent_overwrite :
    ∀ (s : Span) (k : String) (v v1 v2 : GoValue) (w w1 w2 : String),
      (s.SetTag k v).SetTag k v = s.SetTag k v
      ∧ (s.SetBaggageItem k w).SetBaggageItem k w = s.SetBaggageItem k w
      ∧ (s.SetTag k v1).SetTag k v2 = s.SetTag k v2
      ∧ (s.SetBaggageItem k w1).SetBaggageItem k w2 = s.SetBaggageItem k w2
      ∧ mapLookup k (((s.SetTag k v1).SetTag k v2).tags.getD []) = some v2
      ∧ ((s.SetBaggageItem k w1).SetBaggageItem k w2).BaggageItem k = w2 := by
  intro s k v v1 v2 w w1 w2
  refine ⟨?_, ?_, ?_, ?_, ?_, ?_⟩
  · simp [Span.SetTag, mapInsert_mapInsert]
  · simp [Span.SetBaggageItem, mapInsert_mapInsert]
  · simp [Span.SetTag, mapInsert_mapInsert]
  · simp [Span.SetBaggageItem, mapInsert_mapInsert]
  · simp [Span.SetTag, mapLookup_mapInsert]
  · simp [Span.SetBaggageItem, Span.BaggageItem, mapLookup_mapInsert]

/-- C8: `LogFields` performs exactly one structured emission — the
`Tracer.info` call on the span's own entry with its current baggage and
tags — and leaves every span component (operation name, start time,
baggage, tags, logging-entry handle) unchanged. -/
theorem LogFields_single_emission_frame :
    ∀ (s : Span) (fields : List Field),
      (s.LogFields fields).1.operationName = s.operationName
      ∧ (s.LogFields fields).1.startedAt = s.startedAt
      ∧ (s.LogFields fields).1.baggage = s.baggage
      ∧ (s.LogFields fields).1.tags = s.tags
      ∧ (s.LogFields fields).1.logger = s.logger
      ∧ (s.LogFields fields).2
          = [s.tracer.info s.logger (s.baggage.getD []) (s.tags.getD []) fields] :=
  fun _ _ => ⟨rfl, rfl, rfl, rfl, rfl, rfl⟩

/-- C9: `StartSpan` never populates the new span's tags map (it stays
unallocated), the start-option tags are merged only into the opening
logging entry's fields, and a later `LogFields` on the started span merges
with an empty tag map, so start-time tags do not reappear. -/
theorem StartSpan_tags_only_in_opening_entry :
    ∀ (t : Tracer) (name : String) (opts : StartSpanOptions) (now : Nat)
        (fs : List Field),
      (t.StartSpan name opts now).tags = none
      ∧ (t.StartSpan name opts now).logger =
          { openFields :=
              (t.makeFields ((t.StartSpan name opts now).baggage.getD [])
                (goMapOfList opts.tags) []).2,
            eventName := name }
      ∧ ((t.StartSpan name opts now).LogFields fs).2 =
          [t.info (t.StartSpan name opts now).logger
            ((t.StartSpan name opts now).baggage.getD []) [] fs] := by
  intro t name opts now fs
  refine ⟨StartSpan_tags_eq t name opts now, StartSpan_logger_eq t name opts now, ?_⟩
  simp [Span.LogFields, StartSpan_tags_eq, StartSpan_tracer_eq]

/-- C10: when the explicit log fields end with a field whose key is the
configured message key but whose value is not a string, the merge yields
the empty string as the message and drops the value entirely: the merged
field mapping is the one obtained without that field. -/
theorem makeFields_nonstring_message_dropped :
    ∀ (t : Tracer) (b : List (String × String)) (tg : List (String × GoValue))
        (fs : List Field) (v : GoValue),
      isStringValue v = false →
      (t.makeFields b tg (fs ++ [{ key := t.msgKey, value := v }])).1 = ""
      ∧ (t.makeFields b tg (fs ++ [{ key := t.msgKey, value := v }])).2
          = (t.makeFields b tg fs).2 := by
  intro t b tg fs v hv
  have hempty : stringValueOrEmpty v = "" := by
    cases v <;> simp [stringValueOrEmpty, isStringValue] at hv ⊢
  constructor
  · simp [Tracer.makeFields, List.foldl_append, fieldsStep, hempty]
  · simp [Tracer.makeFields, List.foldl_append, fieldsStep]

/-- Witness for C10: a `message`-keyed field holding the integer `7` yields
the empty message and the same (empty) field mapping as having supplied no
fields at all. -/
theorem makeFields_nonstring_message_dropped_witness :
    isStringValue (GoValue.int 7) = false
    ∧ ((Tracer.mk "message").makeFields [] []
        [{ key := "message", value := GoValue.int 7 }]).1 = ""
    ∧ ((Tracer.mk "message").makeFields [] []
        [{ key := "message", value := GoValue.int 7 }]).2
        = ((Tracer.mk "message").makeFields [] [] []).2 :=
  ⟨rfl,
   makeFields_nonstring_message_dropped (Tracer.mk "message") [] [] []
     (GoValue.int 7) rfl⟩

end Apexlog
